import Mathlib

/-
  Verification development for the Note-Taking-App repository.

  The repository's src tree contains only the React frontend (family
  management UI, dashboard, read-only note viewer).  The backend that
  implements the Invitation Code Store, Linking Engine, Authorization
  Filter and Relationship Directory is not part of src, so those
  components are modelled from the specification (each such definition
  is marked "Modelled from the spec").  Frontend logic (request
  building, response consumption, checkbox parsing and toggling) is
  embedded directly from the JSX source files.
-/

namespace NoteApp

/-- Account role; the spec fixes role ∈ \x7bparent, child\x7d, immutable after creation. -/
inductive Role
  | parent
  | child
deriving DecidableEq

/-- An account: identity, role, and the public profile fields (name, contact)
returned to a child on redemption. -/
structure Account where
  id : Nat
  role : Role
  name : String
  contact : String
deriving DecidableEq

/-- Stored status of an invitation code.  `expired` is evaluated lazily from
`expiresAt` at read time (spec §3, §9), so only `active`/`superseded` are stored. -/
inductive CodeStatus
  | active
  | superseded
deriving DecidableEq

/-- Modelled from the spec: InvitationCode — owner (a parent account id), code
value, created_at, expires_at (absent means no expiry), status. -/
structure InvitationCode where
  owner : Nat
  value : String
  createdAt : Nat
  expiresAt : Option Nat
  status : CodeStatus
deriving DecidableEq

/-- Modelled from the spec: system state — the Invitation Code Store, the
Relationship Directory (edges (parent_id, child_id)) and the account registry. -/
structure SysState where
  codes : List InvitationCode
  rels : List (Nat × Nat)
  accounts : List Account
deriving DecidableEq

/-- A code is unexpired at time `now` when it has no expiry or `now ≤ expires_at`
(the spec transitions a code to expired when now > expires_at). -/
def InvitationCode.unexpired (now : Nat) (c : InvitationCode) : Bool :=
  match c.expiresAt with
  | none => true
  | some e => decide (now ≤ e)

/-- The active invitation codes a parent owns in a state. -/
def activeCodesFor (parentId : Nat) (st : SysState) : List InvitationCode :=
  st.codes.filter (fun c => c.owner = parentId ∧ c.status = CodeStatus.active)

/-- Marking step used by generation: any active code of the given parent
becomes superseded; every other code is untouched. -/
def supersedeFor (parentId : Nat) (c : InvitationCode) : InvitationCode :=
  if c.owner = parentId ∧ c.status = CodeStatus.active then
    { c with status := CodeStatus.superseded }
  else c

/-- Modelled from the spec: `generate(parent_id, ttl?)` of the Invitation Code
Store / Linking Engine — atomically marks any prior active code of that parent
as superseded and creates the fresh active code (one logical transaction).
The fresh code value is passed in (entropy source abstracted). -/
def generateCode (parentId : Nat) (newValue : String) (ttlDays : Option Nat)
    (now : Nat) (st : SysState) : SysState :=
  { st with
    codes :=
      { owner := parentId
        value := newValue
        createdAt := now
        expiresAt := ttlDays.map (fun d => now + d * 86400000)
        status := CodeStatus.active } :: st.codes.map (supersedeFor parentId) }

/-- Errors for the redeem-code operation, one per validation check (spec §4.2). -/
inductive RedeemError
  | forbidden
  | invalidFormat
  | notFound
  | expired
  | alreadyLinked
deriving DecidableEq

/-- Modelled from the spec: the unambiguous code alphabet (8 characters drawn
from a 30+-symbol alphabet without lookalike characters). -/
def codeAlphabet : List Char := "ABCDEFGHJKLMNPQRSTUVWXYZ23456789".toList

/-- Modelled from the spec: a code is well-formed when it has the fixed length 8
and is drawn from the fixed alphabet. -/
def validCodeFormat (code : String) : Bool :=
  code.length = 8 && code.toList.all (fun ch => ch ∈ codeAlphabet)

/-- Modelled from the spec: uppercase normalization applied to a submitted
code before the exact match. -/
def upperCode (s : String) : String :=
  String.mk (s.toList.map Char.toUpper)

/-- Modelled from the spec: `lookup(code)` of the Invitation Code Store —
case-insensitive/uppercased exact match, returning the record regardless of
status (callers decide validity). -/
def lookupCode (code : String) (st : SysState) : Option InvitationCode :=
  st.codes.find? (fun c => c.value = upperCode code)

/-- Whether a child account already has a Relationship (to any parent). -/
def hasParentLink (childId : Nat) (st : SysState) : Bool :=
  st.rels.any (fun e => e.2 = childId)

/-- Successful redemption result: the updated state plus the parent's public
profile (name, contact) returned to the child. -/
structure RedeemOk where
  newState : SysState
  parentName : String
  parentContact : String
deriving DecidableEq

/-- Modelled from the spec: `redeem-code(child, code)` of the Linking Engine.
The five validation checks run in the fixed order role, format, existence,
active/unexpired, already-linked; the first failing check determines the
error; otherwise the Relationship edge is created and the parent's public
profile is returned. -/
def redeemCode (requester : Account) (code : String) (now : Nat)
    (st : SysState) : Except RedeemError RedeemOk :=
  if requester.role ≠ Role.child then Except.error RedeemError.forbidden
  else if ¬ validCodeFormat code then Except.error RedeemError.invalidFormat
  else
    match lookupCode code st with
    | none => Except.error RedeemError.notFound
    | some c =>
      if ¬ (c.status = CodeStatus.active ∧ c.unexpired now) then
        Except.error RedeemError.expired
      else if hasParentLink requester.id st then
        Except.error RedeemError.alreadyLinked
      else
        let p := st.accounts.find? (fun a => a.id = c.owner)
        Except.ok
          { newState := { st with rels := (c.owner, requester.id) :: st.rels }
            parentName := ((p.map Account.name).getD "")
            parentContact := ((p.map Account.contact).getD "") }

/-- Error kinds surfaced by authorization and family operations (spec §7). -/
inductive ErrKind
  | notFound
  | forbidden
deriving DecidableEq

/-- Whether an account is an endpoint of any Relationship edge. -/
def hasAnyLink (accountId : Nat) (st : SysState) : Bool :=
  st.rels.any (fun e => e.1 = accountId || e.2 = accountId)

/-- Modelled from the spec: `leave(initiator)` of the Linking Engine — either
endpoint of a Relationship may delete it unilaterally; deleting a non-existent
relationship is a no-op success (idempotent), not an error. -/
def leaveFamily (accountId : Nat) (st : SysState) : Except ErrKind SysState :=
  Except.ok
    { st with rels := st.rels.filter (fun e => ¬ (e.1 = accountId ∨ e.2 = accountId)) }

/-- Access mode of an authorization decision. -/
inductive Mode
  | readOnly
  | readWrite
deriving DecidableEq

/-- Outcome of the Authorization Filter: ALLOW with a mode, or DENY with an
error kind. -/
inductive AuthDecision
  | allow (mode : Mode)
  | deny (kind : ErrKind)
deriving DecidableEq

/-- Resource operations subject to authorization. -/
inductive Operation
  | read
  | create
  | update
  | delete
deriving DecidableEq

/-- Whether an operation mutates the target (create/update/delete). -/
def Operation.isWrite : Operation → Bool
  | Operation.read => false
  | _ => true

/-- Whether a Relationship edge (parent_id, child_id) exists. -/
def relExists (parentId childId : Nat) (st : SysState) : Bool :=
  st.rels.any (fun e => e.1 = parentId && e.2 = childId)

/-- Modelled from the spec: `authorize(requester, target_owner_id, operation)`
of the Authorization Filter — self-access is ALLOW read-write; a parent linked
to the owner gets ALLOW read-only regardless of the operation; every other
case (a linked child looking at its parent, or any unrelated account) is DENY
reported as NotFound, never Forbidden. -/
def authorize (requester : Account) (targetOwner : Nat) (op : Operation)
    (st : SysState) : AuthDecision :=
  if requester.id = targetOwner then AuthDecision.allow Mode.readWrite
  else if requester.role = Role.parent && relExists requester.id targetOwner st then
    AuthDecision.allow Mode.readOnly
  else AuthDecision.deny ErrKind.notFound

/-- Whether a decision permits mutating the target: only ALLOW read-write does. -/
def AuthDecision.permitsWrite : AuthDecision → Bool
  | AuthDecision.allow Mode.readWrite => true
  | _ => false

/-
  Frontend embeddings, from
  src/frontend/src/components/notes/ReadOnlyNoteViewer.jsx.
-/

/-- Left-to-right non-overlapping scan for the global regex of
getChecklistProgress, which matches the literal five-character patterns
"- [x]" and "- [ ]"; one Bool per match, true when the state character is x
(the JS engine advances past a match, otherwise by one character). -/
def checkboxMatches : List Char → List Bool
  | '-' :: ' ' :: '[' :: 'x' :: ']' :: rest => true :: checkboxMatches rest
  | '-' :: ' ' :: '[' :: ' ' :: ']' :: rest => false :: checkboxMatches rest
  | _ :: rest => checkboxMatches rest
  | [] => []

/-- getChecklistProgress from ReadOnlyNoteViewer.jsx: null when the content has
no checkbox marker, else (completed, total) counted over the regex matches. -/
def getChecklistProgress (content : String) : Option (Nat × Nat) :=
  let ms := checkboxMatches content.toList
  if ms = [] then none
  else some (ms.countP (fun b => b = true), ms.length)

/-- Whether a checkbox marker "- [ ]" or "- [x]" occurs at the head of the list. -/
def markerAt (l : List Char) : Bool :=
  decide (l.take 5 = ['-', ' ', '[', ' ', ']']) ||
    decide (l.take 5 = ['-', ' ', '[', 'x', ']'])

/-- Whether a checked marker "- [x]" occurs at the head of the list. -/
def checkedMarkerAt (l : List Char) : Bool :=
  decide (l.take 5 = ['-', ' ', '[', 'x', ']'])

/-- Number of positions of `l` at which a checkbox marker occurs. -/
def markerCount : List Char → Nat
  | [] => 0
  | a :: rest => (if markerAt (a :: rest) then 1 else 0) + markerCount rest

/-- Number of positions of `l` at which a checked marker "- [x]" occurs. -/
def checkedMarkerCount : List Char → Nat
  | [] => 0
  | a :: rest => (if checkedMarkerAt (a :: rest) then 1 else 0) + checkedMarkerCount rest

/-- The JS regex class \s of the toggle regex: tab, newline, vertical tab,
form feed, carriage return, space, no-break space, Ogham space mark, the
en-quad to hair-space range, line separator, paragraph separator, narrow
no-break space, medium mathematical space, ideographic space, and the BOM. -/
def isJsSpace (c : Char) : Bool :=
  c = '\t' || c = '\n' || c = '\x0b' || c = '\x0c' || c = '\x0d' ||
  c = ' ' || c = '\u00A0' || c = '\u1680' ||
  ('\u2000' ≤ c && c ≤ '\u200A') ||
  c = '\u2028' || c = '\u2029' || c = '\u202F' || c = '\u205F' ||
  c = '\u3000' || c = '\uFEFF'

/-- The JS line terminators: newline, carriage return, line separator and
paragraph separator; the dot of the toggle regex matches any character except
these. -/
def isLineTerm (c : Char) : Bool :=
  c = '\n' || c = '\x0d' || c = '\u2028' || c = '\u2029'

/-- Whether `rest` (the text after the state character's closing bracket) is
accepted by the tail `\s*.*$` of the anchored toggle regex: after a greedy
whitespace run, no line terminator may remain. -/
def toggleTailOk (rest : List Char) : Bool :=
  (rest.dropWhile isJsSpace).all (fun c => ¬ isLineTerm c)

/-- Anchored match of the toggle regex of handleCheckboxToggle.  On success
returns (group 1, state character, group 2): group 1 is the leading
whitespace, the dash, inner whitespace and the opening bracket; group 2 is the
closing bracket and the rest of the line. -/
def matchToggle (l : List Char) : Option (List Char × Char × List Char) :=
  let w1 := l.takeWhile isJsSpace
  match l.dropWhile isJsSpace with
  | '-' :: r2 =>
    let w2 := r2.takeWhile isJsSpace
    (match r2.dropWhile isJsSpace with
     | '[' :: c :: ']' :: rest =>
       if (c = ' ' || c = 'x') && toggleTailOk rest then
         some (w1 ++ '-' :: (w2 ++ ['[']), c, ']' :: rest)
       else none
     | _ => none)
  | _ => none

/-- line.replace of handleCheckboxToggle: on a regex match the state character
is replaced by space (when currentChecked) or x (when unchecked); a
non-matching line is returned unchanged. -/
def replaceToggle (line : List Char) (currentChecked : Bool) : List Char :=
  match matchToggle line with
  | some (g1, _, g2) => g1 ++ (if currentChecked then ' ' else 'x') :: g2
  | none => line

/-- content.split of handleCheckboxToggle: split on the newline character. -/
def splitLines : List Char → List (List Char)
  | [] => [[]]
  | c :: rest =>
    if c = '\n' then [] :: splitLines rest
    else
      match splitLines rest with
      | l :: ls => (c :: l) :: ls
      | [] => [[c]]

/-- lines.join of handleCheckboxToggle: interpose a newline between lines. -/
def joinLines : List (List Char) → List Char
  | [] => []
  | [l] => l
  | l :: ls => l ++ '\n' :: joinLines ls

/-- handleCheckboxToggle from InteractiveContent in ReadOnlyNoteViewer.jsx:
returns the content handed to onContentChange, or none when nothing is emitted
(readOnly, no handler, or an out-of-range line index, where the JS code
throws before calling the handler). -/
def handleCheckboxToggle (readOnly hasHandler : Bool) (content : List Char)
    (lineIndex : Nat) (currentChecked : Bool) : Option (List Char) :=
  if readOnly || !hasHandler then none
  else
    match (splitLines content).get? lineIndex with
    | none => none
    | some line =>
      some (joinLines ((splitLines content).set lineIndex
        (replaceToggle line currentChecked)))

/-
  Frontend embeddings, from src/unnamed/part_004 (FamilyManagement).
-/

/-- generateFamilyCode from src/unnamed/part_004: the request body sent to
POST /family/generate-code, as a key/value list.  The input is none when the
expiration field is empty; a non-positive day count aborts with a local error
(no request), otherwise the day count is sent under expires_in_days. -/
def buildGenerateCodeRequest (expirationDays : Option Int) :
    Option (List (String × Int)) :=
  match expirationDays with
  | none => some []
  | some d => if d ≤ 0 then none else some [("expires_in_days", d)]

/-- generateFamilyCode from src/unnamed/part_004: the fields the success
handler reads from the response body (response.data.family_code and
response.data.expires_at). -/
def readGenerateCodeResponse (data : List (String × String)) :
    Option String × Option String :=
  (data.lookup "family_code", data.lookup "expires_at")

/-- Minimal JSON-like values for the my-parent response body. -/
inductive JVal
  | null
  | str (s : String)
  | obj (fields : List (String × JVal))

/-- JS property access on a response value: defined only on objects. -/
def JVal.getField : JVal → String → Option JVal
  | JVal.obj fs, k => fs.lookup k
  | _, _ => none

/-- JS truthiness of the values modelled: null and the empty string are falsy,
objects and non-empty strings truthy. -/
def JVal.truthy : JVal → Bool
  | JVal.null => false
  | JVal.str s => ¬ (s = "")
  | JVal.obj _ => true

/-- Child view of FamilyManagement (src/unnamed/part_004): the parent name and
email the UI displays, read from parentInfo.parent.name and
parentInfo.parent.email; none when parentInfo?.parent is not truthy and the
join-a-family screen is shown instead. -/
def childParentDisplay (parentInfo : JVal) : Option (Option JVal × Option JVal) :=
  match parentInfo.getField "parent" with
  | some p =>
    if p.truthy then some (p.getField "name", p.getField "email") else none
  | none => none

/-
  Concrete sample data used by witnesses.
-/

/-- A sample parent account. -/
def pAcc : Account := ⟨1, Role.parent, "Pat", "pat@example.com"⟩

/-- A sample child account. -/
def cAcc : Account := ⟨2, Role.child, "Chris", "chris@example.com"⟩

/-- A second sample child account. -/
def cAcc2 : Account := ⟨3, Role.child, "Dana", "dana@example.com"⟩

/-- A sample active invitation code owned by the sample parent. -/
def sampleCode : InvitationCode := ⟨1, "AB3DFQ7K", 0, some 100, CodeStatus.active⟩

/-- A sample state with no relationships. -/
def st0 : SysState := ⟨[sampleCode], [], [pAcc, cAcc, cAcc2]⟩

/-- A sample state where child 2 is linked to parent 1. -/
def stLinked : SysState := ⟨[sampleCode], [(1, 2)], [pAcc, cAcc, cAcc2]⟩

/-
  Theorems.
-/

/-- C1: for a parent requester and a target owner distinct from the requester,
authorize never returns ALLOW read-write; when the relationship exists the
decision is ALLOW read-only for every operation including writes; and no
write whose target owner is not the requester is ever permitted. -/
theorem authorize_parent_read_only (requester : Account) (targetOwner : Nat)
    (op : Operation) (st : SysState)
    (hrole : requester.role = Role.parent) (hne : requester.id ≠ targetOwner) :
    authorize requester targetOwner op st ≠ AuthDecision.allow Mode.readWrite ∧
    (relExists requester.id targetOwner st = true →
      authorize requester targetOwner op st = AuthDecision.allow Mode.readOnly) ∧
    (∀ (r : Account) (o : Operation), o.isWrite = true → r.id ≠ targetOwner →
      (authorize r targetOwner o st).permitsWrite = false) := by
  refine ⟨?_, ?_, ?_⟩
  · simp only [authorize, if_neg hne]
    split
    · exact fun h => by simp at h
    · exact fun h => by simp at h
  · intro h
    simp [authorize, if_neg hne, hrole, h]
  · intro r o hw hneq
    simp only [authorize, if_neg hneq]
    split
    · rfl
    · rfl

/-- Witness for C1 at concrete inputs: the linked parent gets a read-only
decision for an update of the child's resources, and the write is not
permitted. -/
theorem authorize_parent_read_only_witness :
    authorize pAcc 2 Operation.update stLinked = AuthDecision.allow Mode.readOnly ∧
    (authorize pAcc 2 Operation.update stLinked).permitsWrite = false :=
  ⟨(authorize_parent_read_only pAcc 2 Operation.update stLinked rfl
      (by decide)).2.1 (by decide),
   (authorize_parent_read_only pAcc 2 Operation.update stLinked rfl
      (by decide)).2.2 pAcc Operation.update rfl (by decide)⟩

/-- C5: when the requester is neither the owner nor a parent linked to the
owner, the decision is DENY reported as NotFound, and never Forbidden. -/
theorem authorize_deny_not_found (requester : Account) (targetOwner : Nat)
    (op : Operation) (st : SysState)
    (hne : requester.id ≠ targetOwner)
    (hnp : ¬ (requester.role = Role.parent ∧
      relExists requester.id targetOwner st = true)) :
    authorize requester targetOwner op st = AuthDecision.deny ErrKind.notFound ∧
    authorize requester targetOwner op st ≠ AuthDecision.deny ErrKind.forbidden := by
  have hc : ¬ ((decide (requester.role = Role.parent) &&
      relExists requester.id targetOwner st) = true) := by
    simp only [Bool.and_eq_true, decide_eq_true_eq]
    exact fun h => hnp h
  constructor
  · simp only [authorize, if_neg hne, if_neg hc]
  · simp only [authorize, if_neg hne, if_neg hc]
    decide

/-- Witness for C5 at concrete inputs: a linked child reading its parent's
resources is denied with NotFound. -/
theorem authorize_deny_not_found_witness :
    authorize cAcc 1 Operation.read stLinked = AuthDecision.deny ErrKind.notFound :=
  (authorize_deny_not_found cAcc 1 Operation.read stLinked (by decide) (by decide)).1

/-- C6: leave-family is an idempotent no-op success — with no relationship the
call succeeds and leaves the state unchanged, and a second call after the
first succeeds and fixes the state reached by the first. -/
theorem leave_family_idempotent (accountId : Nat) (st : SysState) :
    (hasAnyLink accountId st = false → leaveFamily accountId st = Except.ok st) ∧
    (∃ st1, leaveFamily accountId st = Except.ok st1 ∧
      leaveFamily accountId st1 = Except.ok st1 ∧
      hasAnyLink accountId st1 = false) := by
  constructor
  · intro h
    have hall : st.rels.filter
        (fun e => ¬ (e.1 = accountId ∨ e.2 = accountId)) = st.rels := by
      rw [List.filter_eq_self]
      intro e he
      simp only [hasAnyLink, List.any_eq_false] at h
      have := h e he
      simp only [Bool.or_eq_true, decide_eq_true_eq] at this
      simpa using this
    simp only [leaveFamily]
    rw [hall]
  · refine ⟨_, rfl, ?_, ?_⟩
    · simp only [leaveFamily, Except.ok.injEq]
      congr 1
      rw [List.filter_eq_self]
      intro e he
      exact (List.mem_filter.mp he).2
    · simp only [hasAnyLink, List.any_eq_false]
      intro e he
      have := (List.mem_filter.mp he).2
      simp only [decide_eq_true_eq] at this
      simpa using this

/-- Witness for C6 at concrete inputs: leave-family for an unlinked account
returns success with the state unchanged. -/
theorem leave_family_idempotent_witness :
    leaveFamily 7 st0 = Except.ok st0 :=
  (leave_family_idempotent 7 st0).1 (by decide)

/-- Shared helper: a redemption for which all five checks pass returns the new
edge and the parent's public profile. -/
theorem redeemCode_success (requester : Account) (code : String) (now : Nat)
    (st : SysState) (c : InvitationCode)
    (hrole : requester.role = Role.child)
    (hfmt : validCodeFormat code = true)
    (hlook : lookupCode code st = some c)
    (hact : c.status = CodeStatus.active)
    (hexp : c.unexpired now = true)
    (hfree : hasParentLink requester.id st = false) :
    redeemCode requester code now st = Except.ok
      { newState := { st with rels := (c.owner, requester.id) :: st.rels }
        parentName :=
          (((st.accounts.find? (fun a => a.id = c.owner)).map Account.name).getD "")
        parentContact :=
          (((st.accounts.find? (fun a => a.id = c.owner)).map Account.contact).getD "") } := by
  simp [redeemCode, hrole, hfmt, hlook, hact, hexp, hfree]

/-- C3: the five redeem-code validation checks are evaluated in the order
role, format, existence, active/unexpired, already-linked, and the first
failing check determines the error; in particular a malformed code from an
already-linked child yields InvalidFormat. -/
theorem redeem_check_order (requester : Account) (code : String) (now : Nat)
    (st : SysState) :
    (requester.role ≠ Role.child →
      redeemCode requester code now st = Except.error RedeemError.forbidden) ∧
    (requester.role = Role.child → validCodeFormat code = false →
      redeemCode requester code now st = Except.error RedeemError.invalidFormat) ∧
    (requester.role = Role.child → validCodeFormat code = true →
      lookupCode code st = none →
      redeemCode requester code now st = Except.error RedeemError.notFound) ∧
    (∀ c : InvitationCode, requester.role = Role.child →
      validCodeFormat code = true → lookupCode code st = some c →
      ¬ (c.status = CodeStatus.active ∧ c.unexpired now = true) →
      redeemCode requester code now st = Except.error RedeemError.expired) ∧
    (∀ c : InvitationCode, requester.role = Role.child →
      validCodeFormat code = true → lookupCode code st = some c →
      c.status = CodeStatus.active → c.unexpired now = true →
      hasParentLink requester.id st = true →
      redeemCode requester code now st = Except.error RedeemError.alreadyLinked) := by
  refine ⟨?_, ?_, ?_, ?_, ?_⟩
  · intro h
    simp [redeemCode, h]
  · intro h1 h2
    simp [redeemCode, h1, h2]
  · intro h1 h2 h3
    simp [redeemCode, h1, h2, h3]
  · intro c h1 h2 h3 h4
    simp [redeemCode, h1, h2, h3]
    intro hs he
    exact absurd ⟨hs, he⟩ h4
  · intro c h1 h2 h3 h4 h5 h6
    simp [redeemCode, h1, h2, h3, h4, h5, h6]

/-- Witness for C3 at concrete inputs: a malformed code submitted by an
already-linked child yields InvalidFormat, not AlreadyLinked. -/
theorem redeem_check_order_witness :
    redeemCode cAcc "bad!" 0 stLinked = Except.error RedeemError.invalidFormat :=
  (redeem_check_order cAcc "bad!" 0 stLinked).2.1 rfl (by decide)

/-- C4: redemption does not consume the code — after child x redeems an
active, unexpired code, a distinct unlinked child y redeeming the same code
also succeeds, creating the edge (owner, y); the code store is untouched and
the code still looks up unchanged. -/
theorem redeem_multi (st : SysState) (x y : Account) (code : String)
    (c : InvitationCode) (now : Nat)
    (hx : x.role = Role.child) (hy : y.role = Role.child)
    (hfmt : validCodeFormat code = true)
    (hlook : lookupCode code st = some c)
    (hact : c.status = CodeStatus.active) (hexp : c.unexpired now = true)
    (hnx : hasParentLink x.id st = false) (hny : hasParentLink y.id st = false)
    (hne : y.id ≠ x.id) :
    ∃ r1 r2 : RedeemOk,
      redeemCode x code now st = Except.ok r1 ∧
      r1.newState.rels = (c.owner, x.id) :: st.rels ∧
      r1.newState.codes = st.codes ∧
      redeemCode y code now r1.newState = Except.ok r2 ∧
      r2.newState.rels = (c.owner, y.id) :: (c.owner, x.id) :: st.rels ∧
      lookupCode code r2.newState = some c := by
  have h1 := redeemCode_success x code now st c hx hfmt hlook hact hexp hnx
  have hny1 : hasParentLink y.id { st with rels := (c.owner, x.id) :: st.rels } = false := by
    simp only [hasParentLink, List.any_cons, Bool.or_eq_false_iff]
    exact ⟨by simp [Ne.symm hne], by simpa [hasParentLink] using hny⟩
  have h2 := redeemCode_success y code now
    { st with rels := (c.owner, x.id) :: st.rels } c hy hfmt hlook hact hexp hny1
  exact ⟨_, _, h1, rfl, rfl, h2, rfl, hlook⟩

/-- Witness for C4 at concrete inputs: the sample child redeems the sample
parent's code successfully in the unlinked sample state. -/
theorem redeem_multi_witness :
    (redeemCode cAcc "AB3DFQ7K" 0 st0).isOk = true := by
  obtain ⟨r1, r2, h1, -, -, -, -, -⟩ :=
    redeem_multi st0 cAcc cAcc2 "AB3DFQ7K" sampleCode 0 rfl rfl (by decide)
      (by decide) rfl rfl rfl rfl (by decide)
  rw [h1]
  rfl

/-- Shared helper: the supersession pass of a generation for `parentId` leaves
no code that is both owned by `parentId` and active. -/
theorem supersedeFor_not_active (parentId : Nat) (a : InvitationCode) :
    ¬ ((supersedeFor parentId a).owner = parentId ∧
       (supersedeFor parentId a).status = CodeStatus.active) := by
  unfold supersedeFor
  split
  · exact fun h => CodeStatus.noConfusion h.2
  · next h => exact h

/-- Shared helper: the codes of `parentId` that the supersession pass marks are
exactly not the codes counted for a different parent `q`, so the active codes
of `q` are untouched. -/
theorem filter_supersedeFor_ne (parentId q : Nat) (hq : q ≠ parentId)
    (l : List InvitationCode) :
    (l.map (supersedeFor parentId)).filter
      (fun c => decide (c.owner = q ∧ c.status = CodeStatus.active)) =
    l.filter (fun c => decide (c.owner = q ∧ c.status = CodeStatus.active)) := by
  induction l with
  | nil => rfl
  | cons c t ih =>
    rw [List.map_cons, List.filter_cons, List.filter_cons]
    by_cases hc : c.owner = parentId ∧ c.status = CodeStatus.active
    · rw [show supersedeFor parentId c =
        { c with status := CodeStatus.superseded } by rw [supersedeFor, if_pos hc]]
      rw [if_neg ?hleft, if_neg ?hright]
      case hleft =>
        intro h
        rw [decide_eq_true_eq] at h
        exact CodeStatus.noConfusion h.2
      case hright =>
        intro h
        rw [decide_eq_true_eq] at h
        exact hq (hc.1.symm.trans h.1).symm
      exact ih
    · rw [show supersedeFor parentId c = c by rw [supersedeFor, if_neg hc]]
      by_cases hqc : c.owner = q ∧ c.status = CodeStatus.active
      · rw [if_pos (decide_eq_true hqc), if_pos (decide_eq_true hqc), ih]
      · rw [if_neg ?hl, if_neg ?hl2]
        case hl =>
          intro h
          exact hqc (of_decide_eq_true h)
        case hl2 =>
          intro h
          exact hqc (of_decide_eq_true h)
        exact ih

/-- C2: generating a code leaves the owning parent with exactly one active
code, does not disturb other parents' active codes (so the at-most-one-active
invariant is preserved for everyone), and after two generations in a row the
code generated first sits behind the new one with status superseded; the
other state-changing operations never touch the code store. -/
theorem generate_code_invariant (st : SysState) (p : Nat) (v1 v2 : String)
    (t1 t2 : Option Nat) (n1 n2 : Nat) :
    (activeCodesFor p (generateCode p v2 t2 n2 st)).length = 1 ∧
    (∀ q, q ≠ p →
      activeCodesFor q (generateCode p v2 t2 n2 st) = activeCodesFor q st) ∧
    (∀ q, (activeCodesFor q st).length ≤ 1 →
      (activeCodesFor q (generateCode p v2 t2 n2 st)).length ≤ 1) ∧
    ((generateCode p v2 t2 n2 (generateCode p v1 t1 n1 st)).codes.get? 1 =
      some { owner := p, value := v1, createdAt := n1,
             expiresAt := t1.map (fun d => n1 + d * 86400000),
             status := CodeStatus.superseded }) ∧
    (∀ (req : Account) (cd : String) (nw : Nat) (r : RedeemOk),
      redeemCode req cd nw st = Except.ok r → r.newState.codes = st.codes) ∧
    (∀ (a : Nat) (st2 : SysState),
      leaveFamily a st = Except.ok st2 → st2.codes = st.codes) := by
  have h1 : (activeCodesFor p (generateCode p v2 t2 n2 st)).length = 1 := by
    simp only [activeCodesFor, generateCode]
    rw [List.filter_cons_of_pos (by simp)]
    rw [List.filter_eq_nil_iff.mpr ?hnil]
    case hnil =>
      intro a ha
      obtain ⟨b, hb, rfl⟩ := List.mem_map.mp ha
      intro h
      exact supersedeFor_not_active p b (of_decide_eq_true h)
    rfl
  have h2 : ∀ q, q ≠ p →
      activeCodesFor q (generateCode p v2 t2 n2 st) = activeCodesFor q st := by
    intro q hq
    simp only [activeCodesFor, generateCode]
    rw [List.filter_cons_of_neg ?hnew]
    case hnew =>
      simp [Ne.symm hq]
    exact filter_supersedeFor_ne p q hq st.codes
  refine ⟨h1, h2, ?_, ?_, ?_, ?_⟩
  · intro q hle
    by_cases hq : q = p
    · subst hq
      rw [h1]
    · rw [h2 q hq]
      exact hle
  · simp [generateCode, supersedeFor]
  · intro req cd nw r h
    simp only [redeemCode] at h
    split at h
    · simp at h
    · split at h
      · simp at h
      · split at h
        · simp at h
        · split at h
          · simp at h
          · split at h
            · simp at h
            · injection h with h2
              rw [← h2]
  · intro a st2 h
    injection h with h2
    rw [← h2]

/-- Witness for C2 at concrete inputs: after generating in the sample state,
parent 1 has exactly one active code and parent 9's active codes are
untouched. -/
theorem generate_code_invariant_witness :
    (activeCodesFor 1 (generateCode 1 "X2QQQQQQ" none 5 st0)).length = 1 ∧
    activeCodesFor 9 (generateCode 1 "X2QQQQQQ" none 5 st0) = activeCodesFor 9 st0 :=
  ⟨(generate_code_invariant st0 1 "X1QQQQQQ" "X2QQQQQQ" none none 0 5).1,
   (generate_code_invariant st0 1 "X1QQQQQQ" "X2QQQQQQ" none none 0 5).2.1 9 (by decide)⟩

/-- C7 counterexample: the generate-code client does not use the field names
of the claim — the request built for a 7-day TTL carries expires_in_days and
has no ttl_days field, and the success handler reads no code from a response
whose code is keyed code. -/
theorem generate_code_shape_counterexample :
    buildGenerateCodeRequest (some 7) = some [("expires_in_days", (7 : Int))] ∧
    List.lookup "ttl_days" [("expires_in_days", (7 : Int))] = none ∧
    (readGenerateCodeResponse
      [("code", "AB3DFQ7K"), ("expires_at", "2026-10-18")]).1 = none := by
  refine ⟨rfl, rfl, rfl⟩

/-- C7 amended: the generate-code request carries its optional TTL under the
field expires_in_days (positive values only; an empty input sends an empty
body), and the success handler reads the new code under family_code together
with expires_at. -/
theorem generate_code_shape (d : Int) (hd : 0 < d) (code expAt : String) :
    buildGenerateCodeRequest (some d) = some [("expires_in_days", d)] ∧
    buildGenerateCodeRequest none = some [] ∧
    readGenerateCodeResponse [("family_code", code), ("expires_at", expAt)] =
      (some code, some expAt) := by
  refine ⟨?_, rfl, ?_⟩
  · rw [buildGenerateCodeRequest, if_neg (by omega)]
  · simp [readGenerateCodeResponse, List.lookup]

/-- Witness for the amended C7 at concrete inputs: a 7-day TTL is sent under
expires_in_days. -/
theorem generate_code_shape_witness :
    buildGenerateCodeRequest (some 7) = some [("expires_in_days", (7 : Int))] :=
  (generate_code_shape 7 (by decide) "AB3DFQ7K" "2026-10-18").1

/-- C8 counterexample: the client shows no parent for a my-parent response
shaped as the claim states (top-level parent_name/parent_contact fields) — it
renders the not-connected view — while a response nesting a parent object is
displayed. -/
theorem my_parent_shape_counterexample :
    childParentDisplay (JVal.obj [("parent_name", JVal.str "Alice"),
      ("parent_contact", JVal.str "alice@example.com")]) = none ∧
    childParentDisplay (JVal.obj [("parent",
      JVal.obj [("name", JVal.str "Alice"),
        ("email", JVal.str "alice@example.com")])]) =
      some (some (JVal.str "Alice"), some (JVal.str "alice@example.com")) := by
  constructor
  · rfl
  · rfl

/-- C8 amended: the my-parent response nests the parent under a parent field —
for a linked child the client reads parent.name and parent.email; an absent or
null parent field, or a null body, shows the not-connected view. -/
theorem my_parent_shape (name email : String) (fs : List (String × JVal)) :
    childParentDisplay (JVal.obj [("parent",
      JVal.obj (("name", JVal.str name) :: ("email", JVal.str email) :: fs))]) =
      some (some (JVal.str name), some (JVal.str email)) ∧
    childParentDisplay (JVal.obj [("parent", JVal.null)]) = none ∧
    childParentDisplay JVal.null = none := by
  refine ⟨?_, rfl, rfl⟩
  simp [childParentDisplay, JVal.getField, JVal.truthy, List.lookup]

/-- Shared helper: a position with a checkbox marker starts with one of the
two five-character marker strings. -/
theorem markerAt_shape (l : List Char) (h : markerAt l = true) :
    (∃ r, l = '-' :: ' ' :: '[' :: ' ' :: ']' :: r) ∨
    (∃ r, l = '-' :: ' ' :: '[' :: 'x' :: ']' :: r) := by
  unfold markerAt at h
  rw [Bool.or_eq_true] at h
  rcases h with h | h
  · refine Or.inl ⟨l.drop 5, ?_⟩
    have ht := of_decide_eq_true h
    conv_lhs => rw [← List.take_append_drop 5 l]
    rw [ht]
    rfl
  · refine Or.inr ⟨l.drop 5, ?_⟩
    have ht := of_decide_eq_true h
    conv_lhs => rw [← List.take_append_drop 5 l]
    rw [ht]
    rfl

/-- Shared helper: a position with a checked marker starts with "- [x]". -/
theorem checkedMarkerAt_shape (l : List Char) (h : checkedMarkerAt l = true) :
    ∃ r, l = '-' :: ' ' :: '[' :: 'x' :: ']' :: r := by
  unfold checkedMarkerAt at h
  refine ⟨l.drop 5, ?_⟩
  have ht := of_decide_eq_true h
  conv_lhs => rw [← List.take_append_drop 5 l]
  rw [ht]
  rfl

/-- Shared helper: definitional recurrence of markerCount. -/
theorem markerCount_cons (a : Char) (l : List Char) :
    markerCount (a :: l) = (if markerAt (a :: l) then 1 else 0) + markerCount l := rfl

/-- Shared helper: definitional recurrence of checkedMarkerCount. -/
theorem checkedMarkerCount_cons (a : Char) (l : List Char) :
    checkedMarkerCount (a :: l) =
      (if checkedMarkerAt (a :: l) then 1 else 0) + checkedMarkerCount l := rfl

/-- Shared helper: the regex scan skips a position with no marker. -/
theorem checkboxMatches_cons_of_not_marker (a : Char) (l : List Char)
    (h : markerAt (a :: l) = false) :
    checkboxMatches (a :: l) = checkboxMatches l := by
  rw [checkboxMatches.eq_def]
  split
  all_goals
    first
    | (rename_i heq
       rw [heq] at h
       exact Bool.noConfusion (show true = false from h))
    | (rename_i heq
       injection heq with hh ht
       rw [ht])
    | (rename_i heq
       exact absurd heq (by simp))

/-- Shared helper: marker occurrences never overlap, so the non-overlapping
left-to-right regex scan finds one match per marker position — its length is
the number of marker occurrences and its true entries count the checked
markers. -/
theorem checkboxMatches_counts (l : List Char) :
    markerCount l = (checkboxMatches l).length ∧
    checkedMarkerCount l = (checkboxMatches l).countP (fun b => b = true) := by
  induction l using checkboxMatches.induct with
  | case1 rest ih =>
    have e0 : markerAt ('-' :: ' ' :: '[' :: 'x' :: ']' :: rest) = true := rfl
    have e1 : markerAt (' ' :: '[' :: 'x' :: ']' :: rest) = false := rfl
    have e2 : markerAt ('[' :: 'x' :: ']' :: rest) = false := rfl
    have e3 : markerAt ('x' :: ']' :: rest) = false := rfl
    have e4 : markerAt (']' :: rest) = false := rfl
    have f0 : checkedMarkerAt ('-' :: ' ' :: '[' :: 'x' :: ']' :: rest) = true := rfl
    have f1 : checkedMarkerAt (' ' :: '[' :: 'x' :: ']' :: rest) = false := rfl
    have f2 : checkedMarkerAt ('[' :: 'x' :: ']' :: rest) = false := rfl
    have f3 : checkedMarkerAt ('x' :: ']' :: rest) = false := rfl
    have f4 : checkedMarkerAt (']' :: rest) = false := rfl
    have hcm : checkboxMatches ('-' :: ' ' :: '[' :: 'x' :: ']' :: rest) =
        true :: checkboxMatches rest := rfl
    constructor
    · rw [hcm, List.length_cons, markerCount_cons, e0, markerCount_cons, e1,
        markerCount_cons, e2, markerCount_cons, e3, markerCount_cons, e4, ih.1]
      simp
      omega
    · rw [hcm, List.countP_cons, checkedMarkerCount_cons, f0,
        checkedMarkerCount_cons, f1, checkedMarkerCount_cons, f2,
        checkedMarkerCount_cons, f3, checkedMarkerCount_cons, f4, ih.2]
      simp
      omega
  | case2 rest ih =>
    have e0 : markerAt ('-' :: ' ' :: '[' :: ' ' :: ']' :: rest) = true := rfl
    have e1 : markerAt (' ' :: '[' :: ' ' :: ']' :: rest) = false := rfl
    have e2 : markerAt ('[' :: ' ' :: ']' :: rest) = false := rfl
    have e3 : markerAt (' ' :: ']' :: rest) = false := rfl
    have e4 : markerAt (']' :: rest) = false := rfl
    have f0 : checkedMarkerAt ('-' :: ' ' :: '[' :: ' ' :: ']' :: rest) = false := rfl
    have f1 : checkedMarkerAt (' ' :: '[' :: ' ' :: ']' :: rest) = false := rfl
    have f2 : checkedMarkerAt ('[' :: ' ' :: ']' :: rest) = false := rfl
    have f3 : checkedMarkerAt (' ' :: ']' :: rest) = false := rfl
    have f4 : checkedMarkerAt (']' :: rest) = false := rfl
    have hcm : checkboxMatches ('-' :: ' ' :: '[' :: ' ' :: ']' :: rest) =
        false :: checkboxMatches rest := rfl
    constructor
    · rw [hcm, List.length_cons, markerCount_cons, e0, markerCount_cons, e1,
        markerCount_cons, e2, markerCount_cons, e3, markerCount_cons, e4, ih.1]
      simp
      omega
    · rw [hcm, List.countP_cons, checkedMarkerCount_cons, f0,
        checkedMarkerCount_cons, f1, checkedMarkerCount_cons, f2,
        checkedMarkerCount_cons, f3, checkedMarkerCount_cons, f4, ih.2]
      simp
  | case3 head rest h1 h2 ih =>
    have ha : markerAt (head :: rest) = false := by
      cases hb : markerAt (head :: rest) with
      | false => rfl
      | true =>
        rcases markerAt_shape _ hb with ⟨r, hr⟩ | ⟨r, hr⟩
        · injection hr with hh ht
          exact (h2 r hh ht).elim
        · injection hr with hh ht
          exact (h1 r hh ht).elim
    have hca : checkedMarkerAt (head :: rest) = false := by
      cases hb : checkedMarkerAt (head :: rest) with
      | false => rfl
      | true =>
        obtain ⟨r, hr⟩ := checkedMarkerAt_shape _ hb
        injection hr with hh ht
        exact (h1 r hh ht).elim
    constructor
    · rw [checkboxMatches_cons_of_not_marker head rest ha, markerCount_cons, ha, ih.1]
      simp
    · rw [checkboxMatches_cons_of_not_marker head rest ha,
        checkedMarkerCount_cons, hca, ih.2]
      simp
  | case4 => exact ⟨rfl, rfl⟩

/-- C10: getChecklistProgress is null exactly when the content has no
occurrence of the markers "- [ ]" or "- [x]"; otherwise it returns
(completed, total) where total is the number of marker occurrences, completed
the number of checked occurrences, and completed ≤ total. -/
theorem checklist_progress_spec (content : String) :
    (getChecklistProgress content = none ↔ markerCount content.toList = 0) ∧
    (∀ comp tot, getChecklistProgress content = some (comp, tot) →
      tot = markerCount content.toList ∧
      comp = checkedMarkerCount content.toList ∧ comp ≤ tot) := by
  obtain ⟨h1, h2⟩ := checkboxMatches_counts content.toList
  have key : getChecklistProgress content =
      (if checkboxMatches content.toList = [] then none
       else some ((checkboxMatches content.toList).countP (fun b => b = true),
         (checkboxMatches content.toList).length)) := rfl
  constructor
  · rw [key]
    by_cases h : checkboxMatches content.toList = []
    · rw [if_pos h, h1, h]
      simp
    · rw [if_neg h]
      constructor
      · intro hcon
        exact absurd hcon (Option.some_ne_none _)
      · intro hzero
        exfalso
        rw [h1] at hzero
        exact h (List.length_eq_zero.mp hzero)
  · intro comp tot hsome
    rw [key] at hsome
    by_cases h : checkboxMatches content.toList = []
    · rw [if_pos h] at hsome
      exact (Option.noConfusion hsome)
    · rw [if_neg h] at hsome
      injection hsome with hpair
      have hcomp : (checkboxMatches content.toList).countP (fun b => b = true) = comp :=
        congrArg Prod.fst hpair
      have htot : (checkboxMatches content.toList).length = tot :=
        congrArg Prod.snd hpair
      refine ⟨by rw [h1, htot], by rw [h2, hcomp], ?_⟩
      rw [← hcomp, ← htot]
      exact List.countP_le_length _

/-- Witness for C10 at concrete inputs: a note with one checked and one
unchecked checkbox yields completed 1 of total 2, matching the occurrence
counts. -/
theorem checklist_progress_spec_witness :
    2 = markerCount ("- [x] a\n- [ ] b").toList ∧
    1 = checkedMarkerCount ("- [x] a\n- [ ] b").toList ∧ 1 ≤ 2 :=
  (checklist_progress_spec "- [x] a\n- [ ] b").2 1 2 rfl

/-- Shared helper: splitting never yields an empty list of lines. -/
theorem splitLines_ne_nil (l : List Char) : splitLines l ≠ [] := by
  induction l with
  | nil => simp [splitLines]
  | cons c rest ih =>
    by_cases hc : c = '\n'
    · simp [splitLines, hc]
    · simp only [splitLines, if_neg hc]
      cases hsp : splitLines rest with
      | nil => exact absurd hsp ih
      | cons hd tl => simp

/-- Shared helper: no produced line contains a newline. -/
theorem mem_splitLines_no_newline (l : List Char) (x : List Char)
    (hx : x ∈ splitLines l) : '\n' ∉ x := by
  induction l generalizing x with
  | nil =>
    simp only [splitLines, List.mem_singleton] at hx
    subst hx
    simp
  | cons c rest ih =>
    by_cases hc : c = '\n'
    · rw [show splitLines (c :: rest) = [] :: splitLines rest by
        rw [splitLines, if_pos hc]] at hx
      rcases List.mem_cons.mp hx with rfl | hx2
      · simp
      · exact ih x hx2
    · simp only [splitLines, if_neg hc] at hx
      cases hsp : splitLines rest with
      | nil => exact absurd hsp (splitLines_ne_nil rest)
      | cons hd tl =>
        rw [hsp] at hx
        rcases List.mem_cons.mp hx with rfl | hx2
        · intro hmem
          rcases List.mem_cons.mp hmem with h1 | h2
          · exact hc h1.symm
          · exact ih hd (by rw [hsp]; exact List.mem_cons_self hd tl) h2
        · exact ih x (by rw [hsp]; exact List.mem_cons_of_mem hd hx2)

/-- Shared helper: join of two or more lines interposes one newline. -/
theorem joinLines_cons_cons (x y : List Char) (tl : List (List Char)) :
    joinLines (x :: y :: tl) = x ++ '\n' :: joinLines (y :: tl) := rfl

/-- Shared helper: joining the split lines rebuilds the content. -/
theorem joinLines_splitLines (l : List Char) : joinLines (splitLines l) = l := by
  induction l with
  | nil => rfl
  | cons c rest ih =>
    by_cases hc : c = '\n'
    · subst hc
      rw [show splitLines ('\n' :: rest) = [] :: splitLines rest by
        rw [splitLines, if_pos rfl]]
      cases hsp : splitLines rest with
      | nil => exact absurd hsp (splitLines_ne_nil rest)
      | cons hd tl =>
        rw [hsp] at ih
        rw [joinLines_cons_cons, List.nil_append, ih]
    · simp only [splitLines, if_neg hc]
      cases hsp : splitLines rest with
      | nil => exact absurd hsp (splitLines_ne_nil rest)
      | cons hd tl =>
        rw [hsp] at ih
        cases tl with
        | nil =>
          rw [show joinLines [c :: hd] = c :: hd from rfl]
          rw [show joinLines [hd] = hd from rfl] at ih
          rw [ih]
        | cons y t2 =>
          rw [joinLines_cons_cons] at ih
          rw [joinLines_cons_cons, List.cons_append, ih]

/-- Shared helper: a newline-free content splits into itself alone. -/
theorem splitLines_no_newline (x : List Char) (hx : '\n' ∉ x) :
    splitLines x = [x] := by
  induction x with
  | nil => rfl
  | cons c t ih =>
    have hc : ¬ c = '\n' := fun h => hx (h ▸ List.mem_cons_self c t)
    have ht : '\n' ∉ t := fun h => hx (List.mem_cons_of_mem c h)
    simp only [splitLines, if_neg hc, ih ht]

/-- Shared helper: splitting after a newline-free first line peels it off. -/
theorem splitLines_append_newline (x r : List Char) (hx : '\n' ∉ x) :
    splitLines (x ++ '\n' :: r) = x :: splitLines r := by
  induction x with
  | nil =>
    rw [List.nil_append, splitLines, if_pos rfl]
  | cons c t ih =>
    have hc : ¬ c = '\n' := fun h => hx (h ▸ List.mem_cons_self c t)
    have ht : '\n' ∉ t := fun h => hx (List.mem_cons_of_mem c h)
    rw [List.cons_append, splitLines, if_neg hc, ih ht]

/-- Shared helper: splitting the join of newline-free lines gives them back. -/
theorem splitLines_joinLines (ls : List (List Char))
    (hnl : ∀ x ∈ ls, '\n' ∉ x) (hne : ls ≠ []) :
    splitLines (joinLines ls) = ls := by
  induction ls with
  | nil => exact absurd rfl hne
  | cons x tl ih =>
    cases tl with
    | nil =>
      rw [show joinLines [x] = x from rfl]
      exact splitLines_no_newline x (hnl x (List.mem_cons_self x []))
    | cons y t2 =>
      rw [joinLines_cons_cons,
        splitLines_append_newline x _ (hnl x (List.mem_cons_self x (y :: t2))),
        ih (fun z hz => hnl z (List.mem_cons_of_mem x hz)) (by simp)]

/-- Shared helper: setting an entry to its current value changes nothing. -/
theorem set_get?_self {α : Type} (l : List α) (i : Nat) (a : α)
    (h : l.get? i = some a) : l.set i a = l := by
  induction l generalizing i with
  | nil => simp at h
  | cons b t ih =>
    cases i with
    | zero =>
      simp only [List.get?] at h
      injection h with h
      simp only [List.set, h]
    | succ n =>
      simp only [List.get?] at h
      simp only [List.set, ih n h]

/-- Shared helper: the toggle regex matches a plain checkbox line, capturing
the dash-bracket prefix and the bracket-to-end suffix. -/
theorem matchToggle_marker (s : Char) (rest : List Char)
    (hs : s = ' ' ∨ s = 'x') (hrest : toggleTailOk rest = true) :
    matchToggle ('-' :: ' ' :: '[' :: s :: ']' :: rest) =
      some (['-', ' ', '['], s, ']' :: rest) := by
  rcases hs with rfl | rfl
  · show (if (toggleTailOk rest) = true then
        some ((['-', ' ', '['] : List Char), (' ' : Char), ']' :: rest)
      else none) = some (['-', ' ', '['], ' ', ']' :: rest)
    exact if_pos hrest
  · show (if (toggleTailOk rest) = true then
        some ((['-', ' ', '['] : List Char), ('x' : Char), ']' :: rest)
      else none) = some (['-', ' ', '['], 'x', ']' :: rest)
    exact if_pos hrest

/-- Shared helper: the toggle replacement on a plain checkbox line rewrites
exactly the state character. -/
theorem replaceToggle_marker (s : Char) (rest : List Char)
    (hs : s = ' ' ∨ s = 'x') (hrest : toggleTailOk rest = true) (b : Bool) :
    replaceToggle ('-' :: ' ' :: '[' :: s :: ']' :: rest) b =
      '-' :: ' ' :: '[' :: (if b then ' ' else 'x') :: ']' :: rest := by
  unfold replaceToggle
  rw [matchToggle_marker s rest hs hrest]
  rfl

/-- C9: on a content whose line i matches the checkbox pattern, the toggle
flips exactly the state character of that line, leaves every other line
byte-for-byte unchanged, applying the toggle twice restores the original
content, and with readOnly set or no change handler nothing is emitted. -/
theorem handle_checkbox_toggle_spec (content : List Char) (i : Nat) (s : Char)
    (rest : List Char)
    (hline : (splitLines content).get? i =
      some ('-' :: ' ' :: '[' :: s :: ']' :: rest))
    (hs : s = ' ' ∨ s = 'x')
    (hrest : toggleTailOk rest = true) :
    (∀ b c, handleCheckboxToggle true b content i c = none) ∧
    (∀ a c, handleCheckboxToggle a false content i c = none) ∧
    (∃ nc, handleCheckboxToggle false true content i (decide (s = 'x')) = some nc ∧
      splitLines nc = (splitLines content).set i
        ('-' :: ' ' :: '[' :: (if s = 'x' then ' ' else 'x') :: ']' :: rest) ∧
      (∀ j, j ≠ i → (splitLines nc).get? j = (splitLines content).get? j) ∧
      handleCheckboxToggle false true nc i
        (decide ((if s = 'x' then ' ' else 'x') = 'x')) = some content) := by
  have happly : ∀ (ct : List Char) (c : Bool) (ln : List Char),
      (splitLines ct).get? i = some ln →
      handleCheckboxToggle false true ct i c =
        some (joinLines ((splitLines ct).set i (replaceToggle ln c))) := by
    intro ct c ln hln
    show (match (splitLines ct).get? i with
      | none => none
      | some line =>
        some (joinLines ((splitLines ct).set i (replaceToggle line c)))) =
      some (joinLines ((splitLines ct).set i (replaceToggle ln c)))
    rw [hln]
  have hlt : i < (splitLines content).length := by
    rcases List.get?_eq_some.mp hline with ⟨h, -⟩
    exact h
  have hrepl1 : replaceToggle ('-' :: ' ' :: '[' :: s :: ']' :: rest)
      (decide (s = 'x')) =
      '-' :: ' ' :: '[' :: (if s = 'x' then ' ' else 'x') :: ']' :: rest := by
    rw [replaceToggle_marker s rest hs hrest]
    rcases hs with rfl | rfl
    · rfl
    · rfl
  have hrepl2 : replaceToggle
      ('-' :: ' ' :: '[' :: (if s = 'x' then ' ' else 'x') :: ']' :: rest)
      (decide ((if s = 'x' then ' ' else 'x') = 'x')) =
      '-' :: ' ' :: '[' :: s :: ']' :: rest := by
    rcases hs with rfl | rfl
    · show replaceToggle ('-' :: ' ' :: '[' :: 'x' :: ']' :: rest)
        (decide ('x' = 'x')) = '-' :: ' ' :: '[' :: ' ' :: ']' :: rest
      rw [replaceToggle_marker 'x' rest (Or.inr rfl) hrest]
      rfl
    · show replaceToggle ('-' :: ' ' :: '[' :: ' ' :: ']' :: rest)
        (decide (' ' = 'x')) = '-' :: ' ' :: '[' :: 'x' :: ']' :: rest
      rw [replaceToggle_marker ' ' rest (Or.inl rfl) hrest]
      rfl
  have hnlline : '\n' ∉ ('-' :: ' ' :: '[' :: s :: ']' :: rest) :=
    mem_splitLines_no_newline content _ (List.get?_mem hline)
  have hnlrest : '\n' ∉ rest := fun h => hnlline (by simp [h])
  have hnlnew : '\n' ∉
      ('-' :: ' ' :: '[' :: (if s = 'x' then ' ' else 'x') :: ']' :: rest) := by
    intro hmem
    rcases hs with rfl | rfl <;> simp at hmem <;> exact hnlrest hmem
  have hsetmem : ∀ x ∈ (splitLines content).set i
      ('-' :: ' ' :: '[' :: (if s = 'x' then ' ' else 'x') :: ']' :: rest),
      '\n' ∉ x := by
    intro x hx
    rcases List.mem_or_eq_of_mem_set hx with hx2 | rfl
    · exact mem_splitLines_no_newline content x hx2
    · exact hnlnew
  have hsetne : (splitLines content).set i
      ('-' :: ' ' :: '[' :: (if s = 'x' then ' ' else 'x') :: ']' :: rest) ≠ [] := by
    intro hnil
    have hlen := congrArg List.length hnil
    rw [List.length_set] at hlen
    exact splitLines_ne_nil content (List.length_eq_zero.mp hlen)
  have hsplit : splitLines (joinLines ((splitLines content).set i
      ('-' :: ' ' :: '[' :: (if s = 'x' then ' ' else 'x') :: ']' :: rest))) =
      (splitLines content).set i
        ('-' :: ' ' :: '[' :: (if s = 'x' then ' ' else 'x') :: ']' :: rest) :=
    splitLines_joinLines _ hsetmem hsetne
  refine ⟨fun b c => rfl, fun a c => by cases a <;> rfl,
    joinLines ((splitLines content).set i
      ('-' :: ' ' :: '[' :: (if s = 'x' then ' ' else 'x') :: ']' :: rest)),
    ?_, hsplit, ?_, ?_⟩
  · rw [happly content _ _ hline, hrepl1]
  · intro j hj
    rw [hsplit]
    exact List.get?_set_ne _ _ (fun h => hj h.symm)
  · have hline2 : (splitLines (joinLines ((splitLines content).set i
        ('-' :: ' ' :: '[' :: (if s = 'x' then ' ' else 'x') :: ']' :: rest)))).get? i =
        some ('-' :: ' ' :: '[' :: (if s = 'x' then ' ' else 'x') :: ']' :: rest) := by
      rw [hsplit]
      exact List.get?_set_eq_of_lt _ hlt
    rw [happly _ _ _ hline2, hrepl2, hsplit, List.set_set,
      set_get?_self _ _ _ hline, joinLines_splitLines]

/-- Witness for C9 at concrete inputs: toggling the checked box of a one-line
note emits new content, while the read-only viewer emits nothing. -/
theorem handle_checkbox_toggle_witness :
    handleCheckboxToggle true true ("- [x] a".toList) 0 true = none ∧
    (handleCheckboxToggle false true ("- [x] a".toList) 0
      (decide ('x' = 'x'))).isSome = true := by
  have h := handle_checkbox_toggle_spec ("- [x] a".toList) 0 'x' (" a".toList)
    rfl (Or.inr rfl) rfl
  refine ⟨h.1 true true, ?_⟩
  obtain ⟨nc, hnc, -⟩ := h.2.2
  rw [hnc]
  rfl

end NoteApp
